import Mathlib

/-!
Verification of the fuguang-translator core against its specification.

The Python source is shallowly embedded: strings are `List Char`, byte
buffers are `List Nat` (one `Nat` per byte), stateful objects are explicit
state-passing functions, and fallible operations return `Except`.
-/

set_option maxRecDepth 4000

deriving instance DecidableEq for Except

/-- Python `str.strip()` (no argument): remove leading and trailing
whitespace characters from the string. -/
def pyStrip (s : List Char) : List Char :=
  ((s.dropWhile Char.isWhitespace).reverse.dropWhile Char.isWhitespace).reverse

/-- `ApplicationController._longest_overlap`, inner loop: scan candidate
overlap sizes from `fuel` down to `1`, returning the first size `k` such
that the last `k` characters of `previous` are a prefix of `current`
(Python `current.startswith(previous[-size:])`), and `0` if none matches. -/
def longestOverlapScan (previous current : List Char) : Nat → Nat
  | 0 => 0
  | k + 1 =>
    if previous.drop (previous.length - (k + 1)) <+: current then k + 1
    else longestOverlapScan previous current k

/-- `ApplicationController._longest_overlap(previous, current)`:
`max_len = min(len(previous), len(current))`; scan sizes
`max_len, …, 1`; first match wins; otherwise `0`. -/
def longest_overlap (previous current : List Char) : Nat :=
  longestOverlapScan previous current (min previous.length current.length)

/-- A display action emitted to the subtitle window:
`set_transcript` or `append_transcript`. -/
inductive DisplayEvent where
  | setText (s : List Char)
  | appendText (s : List Char)
deriving DecidableEq, Repr

/-- `ApplicationController.add_history_entry(text)` acting on the cached
transcript `self._transcript_text`.  Returns the new transcript together
with the list of display actions sent to the window.  Mirrors the source
line by line: strip; early return on empty; rule chain on `normalized`. -/
def add_history_entry (transcript text : List Char) :
    List Char × List DisplayEvent :=
  let normalized := pyStrip text
  if normalized = [] then (transcript, [])
  else if transcript = [] then (normalized, [DisplayEvent.setText normalized])
  else if normalized = transcript then (transcript, [])
  else if transcript <+: normalized then
    let addition := normalized.drop transcript.length
    if addition = [] then (transcript, [])
    else (normalized, [DisplayEvent.appendText addition])
  else if normalized <:+ transcript then (transcript, [])
  else
    let overlap := longest_overlap transcript normalized
    if 0 < overlap then
      let addition := normalized.drop overlap
      if addition = [] then (transcript, [])
      else (transcript ++ addition, [DisplayEvent.appendText addition])
    else
      let separator :=
        if transcript.getLast? = some '\n' ∨ transcript = [] then ([] : List Char)
        else ['\n']
      let addition := separator ++ normalized
      (transcript ++ addition, [DisplayEvent.appendText addition])

/-- Total text newly shown on the display by a list of display events
(the transcript is empty whenever `setText` is emitted, so `setText s`
shows exactly `s` of new text). -/
def displayedOf : List DisplayEvent → List Char
  | [] => []
  | DisplayEvent.setText s :: rest => s ++ displayedOf rest
  | DisplayEvent.appendText s :: rest => s ++ displayedOf rest

/-- The six-rule reconciliation decision policy exactly as the
specification words it (§4.4), as a function from the previous confirmed
transcript `P` and a trimmed fragment `F` to the pair
(updated `P`, increment).  This definition follows the spec text and is
compared against `add_history_entry`, which follows the source. -/
def specReconcile (P F : List Char) : List Char × List Char :=
  if P = [] then (F, F)
  else if F = P then (P, [])
  else if P <+: F then (F, F.drop P.length)
  else if F <:+ P then (P, [])
  else
    let k := longest_overlap P F
    if 0 < k then (P ++ F.drop k, F.drop k)
    else
      let sep :=
        if P = [] ∨ P.getLast? = some '\n' then ([] : List Char) else ['\n']
      (P ++ (sep ++ F), sep ++ F)

/-! ## Audio: float → 16-bit PCM conversion (`SystemAudioCapture._float_to_pcm16`)

Samples are modelled as exact rationals; the NumPy `astype(np.int16)`
cast truncates toward zero. -/

/-- Truncation toward zero of a rational, as performed by a C float→int
cast (`astype(np.int16)` after clipping keeps the value in range). -/
def truncQ (q : ℚ) : ℤ := q.num.tdiv q.den

/-- `np.clip(x, -1.0, 1.0)` on one sample. -/
def clipQ (x : ℚ) : ℚ := min (max x (-1)) 1

/-- `SystemAudioCapture._float_to_pcm16`: clip every sample to
`[-1.0, 1.0]`, scale by `np.iinfo(np.int16).max = 32767`, cast to
`int16` (truncation toward zero). -/
def float_to_pcm16 (data : List ℚ) : List ℤ :=
  data.map (fun x => truncQ (clipQ x * 32767))

/-! ## DashScope realtime backend (`DashScopeRealtimeBackend`) -/

/-- One inbound wire message as parsed by `json.loads`, restricted to the
fields the client dispatch reads.  `Option` is Python `dict.get` absence;
an absent `part`/`errorField` also stands for a non-dict value (the code
guards with `isinstance(..., dict)`).  `raw` carries
`json.dumps(data, ensure_ascii=False)`, the last-resort error payload. -/
structure WireMsg where
  type : Option (List Char) := none
  transcript : Option (List Char) := none
  text : Option (List Char) := none
  stash : Option (List Char) := none
  partType : Option (Option (List Char)) := none
  partText : Option (Option (List Char)) := none
  message : Option (List Char) := none
  errorField : Option (Option (List Char)) := none
  raw : List Char := []
deriving DecidableEq, Repr

/-- One outcome of `self._ws.recv()`: a parsed message, a
`WebSocketTimeoutException`, or a `WebSocketConnectionClosedException`. -/
inductive RecvOutcome where
  | msg (m : WireMsg)
  | timeout
  | closed
deriving DecidableEq, Repr

/-- Errors raised by `poll_translations`: `RuntimeError("DashScope
WebSocket 已关闭")` on a closed connection, and `RuntimeError("DashScope
服务返回错误: " + details)` on an `error` event, carrying `details`. -/
inductive PollError where
  | connectionClosed
  | serviceError (details : List Char)
deriving DecidableEq, Repr

/-- Python truthiness for an optional string: `None` and `""` are falsy. -/
def pyTruthy : Option (List Char) → Bool
  | none => false
  | some s => s ≠ []

/-- Python `a or b` on optional strings (used for
`data.get("text") or data.get("stash")`). -/
def pyOrElse (a b : Option (List Char)) : Option (List Char) :=
  if pyTruthy a then a else b

/-- Error detail extraction in the `error` branch of
`poll_translations`: `data.get("message")`, else nested
`data["error"].get("message")` when `error` is a dict, else the raw
serialized payload. -/
def errorDetails (m : WireMsg) : List Char :=
  let details := m.message
  let details :=
    if pyTruthy details then details
    else match m.errorField with
      | some inner => inner
      | none => details
  if pyTruthy details then details.getD [] else m.raw

/-- Guard of the second `elif` in `poll_translations`:
`event_type and "response.text" in event_type` (truthy type containing
the substring `response.text`). -/
def typeHasResponseText : Option (List Char) → Bool
  | none => false
  | some t => decide (t ≠ []) && decide ("response.text".toList <:+: t)

/-- Event-type dispatch of `poll_translations` for one received message:
returns the transcript texts appended for this message, or raises on an
`error` event.  Mirrors the `if/elif` chain of the source. -/
def dispatchMsg (m : WireMsg) : Except PollError (List (List Char)) :=
  let et := m.type
  if et = some "response.audio_transcript.delta".toList ∨
      et = some "response.audio_transcript.done".toList then
    Except.ok (if pyTruthy m.transcript then [m.transcript.getD []] else [])
  else if typeHasResponseText et then
    let text := pyOrElse m.text m.stash
    let text :=
      if pyTruthy text = false && m.partType.isSome then
        m.partText.getD none
      else text
    Except.ok (if pyTruthy text then [text.getD []] else [])
  else if et = some "response.content_part.added".toList then
    let pt := (m.partType.getD none).getD []
    if pt = "text".toList then
      let text := m.partText.getD none
      Except.ok (if pyTruthy text then [text.getD []] else [])
    else Except.ok []
  else if et = some "error".toList then
    Except.error (PollError.serviceError (errorDetails m))
  else Except.ok []

/-- The receive-drain loop of `poll_translations` over the socket's
pending inbound outcomes: collect texts until a timeout ends the loop
(an exhausted trace behaves like a timeout), raise on a closed
connection or an `error` event — discarding everything collected.
Returns the result together with the outcomes left unread. -/
def drainLoop : List RecvOutcome → Except PollError (List (List Char)) × List RecvOutcome
  | [] => (Except.ok [], [])
  | RecvOutcome.timeout :: rest => (Except.ok [], rest)
  | RecvOutcome.closed :: rest => (Except.error PollError.connectionClosed, rest)
  | RecvOutcome.msg m :: rest =>
    match dispatchMsg m with
    | Except.error e => (Except.error e, rest)
    | Except.ok ts =>
      match drainLoop rest with
      | (Except.ok more, rem) => (Except.ok (ts ++ more), rem)
      | (Except.error e, rem) => (Except.error e, rem)

/-- The websocket connection handle: its pending inbound outcomes, and
whether `close()` raises when called (environment nondeterminism). -/
structure Socket where
  inbound : List RecvOutcome := []
  closeFails : Bool := false
deriving DecidableEq, Repr

/-- Mutable state of a `DashScopeRealtimeBackend` instance: `self._ws`
(`None` when no session is open) and `self._event_counter`. -/
structure BackendSt where
  ws : Option Socket := none
  eventCounter : Nat := 0
deriving DecidableEq, Repr

/-- `DashScopeRealtimeBackend.poll_translations`: with no socket, return
the empty list; otherwise drain the socket. -/
def poll_translations (st : BackendSt) :
    Except PollError (List (List Char)) × BackendSt :=
  match st.ws with
  | none => (Except.ok [], st)
  | some sock =>
    let (r, rem) := drainLoop sock.inbound
    (r, { st with ws := some { sock with inbound := rem } })

/-- `DashScopeRealtimeBackend.stop`: close the socket if one is open and
clear `self._ws` (the clearing sits in a `finally`, so it happens even
when `close()` raises — but the exception is not caught and propagates). -/
def DashScopeRealtimeBackend.stop (st : BackendSt) :
    Except Unit Unit × BackendSt :=
  match st.ws with
  | none => (Except.ok (), st)
  | some sock =>
    ((if sock.closeFails then Except.error () else Except.ok ()),
     { st with ws := none })

/-- `DashScopeRealtimeBackend._send_json`: raises `RuntimeError
("WebSocket 尚未建立")` when no socket is open, otherwise serializes and
sends the message under the lock. -/
def sendJson (st : BackendSt) (_message : List Char) : Except (List Char) Unit :=
  match st.ws with
  | none => Except.error "WebSocket 尚未建立".toList
  | some _ => Except.ok ()

/-- Decimal digits of a natural number, as Python `str(n)` / f-string
interpolation renders it. -/
def natDigits (n : Nat) : List Char := (Nat.repr n).toList

/-- `DashScopeRealtimeBackend._next_event_id`: increment
`self._event_counter`, then format
`f"event_{int(time.time() * 1000)}_{self._event_counter}"`.
The wall clock is passed in as `nowMillis`. -/
def next_event_id (st : BackendSt) (nowMillis : Nat) : List Char × BackendSt :=
  let c := st.eventCounter + 1
  ("event_".toList ++ natDigits nowMillis ++ ['_'] ++ natDigits c,
   { st with eventCounter := c })

/-- RFC 4648 base64 alphabet, as used by Python `base64.b64encode`. -/
def base64Table : List Char :=
  "ABCDEFGHIJKLMNOPQRSTUVWXYZabcdefghijklmnopqrstuvwxyz0123456789+/".toList

/-- Character for one 6-bit group. -/
def b64Char (n : Nat) : Char := base64Table.getD n '?'

/-- `base64.b64encode` over a byte list (each `Nat` one byte),
producing the ASCII characters of the encoding, `'='`-padded. -/
def base64Encode : List Nat → List Char
  | [] => []
  | [b1] => [b64Char (b1 / 4), b64Char (b1 % 4 * 16), '=', '=']
  | [b1, b2] =>
    [b64Char (b1 / 4), b64Char (b1 % 4 * 16 + b2 / 16), b64Char (b2 % 16 * 4), '=']
  | b1 :: b2 :: b3 :: rest =>
    b64Char (b1 / 4) :: b64Char (b1 % 4 * 16 + b2 / 16) ::
      b64Char (b2 % 16 * 4 + b3 / 64) :: b64Char (b3 % 64) :: base64Encode rest

/-- The `input_audio_buffer.append` JSON message built by `send_audio`. -/
structure AppendMsg where
  event_id : List Char
  type : List Char
  audio : List Char
deriving DecidableEq, Repr

/-- `DashScopeRealtimeBackend.send_audio(pcm_chunk)`: no-op when the
socket is absent or the chunk empty; otherwise transmit one
`input_audio_buffer.append` message carrying the base64-encoded chunk
under a fresh event id.  Returns the new state and the sent messages. -/
def send_audio (st : BackendSt) (nowMillis : Nat) (pcm_chunk : List Nat) :
    BackendSt × List AppendMsg :=
  if st.ws = none ∨ pcm_chunk = [] then (st, [])
  else
    let (eid, st') := next_event_id st nowMillis
    (st',
     [{ event_id := eid, type := "input_audio_buffer.append".toList,
        audio := base64Encode pcm_chunk }])

/-! ## Mock backend (`MockTranslatorBackend`) -/

/-- State of a `MockTranslatorBackend` instance: the configured sample
rate and the accumulated byte counter `self._buffer`. -/
structure MockSt where
  samplerate : Nat
  buffer : Nat := 0
deriving DecidableEq, Repr

/-- `MockTranslatorBackend.start`: reset the byte counter. -/
def MockTranslatorBackend.start (st : MockSt) : MockSt := { st with buffer := 0 }

/-- `MockTranslatorBackend.send_audio`: accumulate the chunk's byte length. -/
def MockTranslatorBackend.send_audio (st : MockSt) (pcm_chunk : List Nat) : MockSt :=
  { st with buffer := st.buffer + pcm_chunk.length }

/-- Round-half-even division (the rounding Python's `f"{x:.1f}"`
formatting applies to the exact quotient), returning
`round(num / den)`. -/
def roundHalfEvenDiv (num den : Nat) : Nat :=
  let q := num / den
  let r := num % den
  if 2 * r < den then q
  else if den < 2 * r then q + 1
  else if q % 2 = 0 then q else q + 1

/-- Rendering of `f"{seconds:.1f}"` for
`seconds = buffer / (samplerate * 2)`, modelled over the exact rational
value: one digit after the decimal point, round half to even. -/
def formatSeconds1 (buffer samplerate : Nat) : List Char :=
  let t := roundHalfEvenDiv (10 * buffer) (samplerate * 2)
  natDigits (t / 10) ++ ['.'] ++ natDigits (t % 10)

/-- The synthetic status string
`f"[Mock] 已处理约 {seconds:.1f} 秒音频"`. -/
def mockStatusString (buffer samplerate : Nat) : List Char :=
  "[Mock] 已处理约 ".toList ++ formatSeconds1 buffer samplerate ++ " 秒音频".toList

/-- `MockTranslatorBackend.poll_translations`: empty when the counter is
zero; otherwise one status string, and the counter resets to zero. -/
def MockTranslatorBackend.poll_translations (st : MockSt) :
    MockSt × List (List Char) :=
  if st.buffer = 0 then (st, [])
  else ({ st with buffer := 0 }, [mockStatusString st.buffer st.samplerate])

/-- `MockTranslatorBackend.flush`: reset the byte counter. -/
def MockTranslatorBackend.flush (st : MockSt) : MockSt := { st with buffer := 0 }

/-- `MockTranslatorBackend.stop`: reset the byte counter. -/
def MockTranslatorBackend.stop (st : MockSt) : MockSt := { st with buffer := 0 }

/-! ## Background worker (`TranslationWorker.run`)

The backend and environment are abstracted by an oracle giving each
operation's outcome (`Except` error = a raised exception, carried as its
message string); the audio stream is the list of chunks the generator
yields before ending. -/

/-- Outcomes of the environment and backend operations as observed by one
`run()` episode: `startOutcome` covers `_create_backend()` plus
`backend.start()`; `sendOutcome i` / `pollOutcome i` the calls of
iteration `i`; `stopFlagAt i` whether `self._stop_event.is_set()` at
iteration `i`. -/
structure WorkerEnv where
  startOutcome : Except (List Char) Unit
  sendOutcome : Nat → Except (List Char) Unit
  pollOutcome : Nat → Except (List Char) (List (List Char))
  flushOutcome : Except (List Char) Unit
  stopOutcome : Except (List Char) Unit
  stopFlagAt : Nat → Bool

/-- The caption filter inside the polling loop: strip each caption, skip
empty ones and ones equal to the last emitted caption, update
`self._last_caption`, emit the rest.  Returns the new last caption and
the emitted subtitles in order. -/
def processCaptions (last : List Char) : List (List Char) → List Char × List (List Char)
  | [] => (last, [])
  | c :: rest =>
    let normalized := pyStrip c
    if normalized = [] ∨ normalized = last then processCaptions last rest
    else
      let (last', out) := processCaptions normalized rest
      (last', normalized :: out)

/-- The `for chunk in …` loop body of `TranslationWorker.run`, iterated
over the chunks the audio generator yields, starting at iteration `i`
with last caption `last`.  Returns the subtitles emitted before the loop
ended, and `some e` when an exception `e` escaped the body. -/
def workerLoop (env : WorkerEnv) : List Nat → Nat → List Char →
    List (List Char) × Option (List Char)
  | [], _, _ => ([], none)
  | _ :: chunks, i, last =>
    if env.stopFlagAt i then ([], none)
    else
      match env.sendOutcome i with
      | Except.error e => ([], some e)
      | Except.ok _ =>
        match env.pollOutcome i with
        | Except.error e => ([], some e)
        | Except.ok captions =>
          let (last', emitted) := processCaptions last captions
          let (more, err) := workerLoop env chunks (i + 1) last'
          (emitted ++ more, err)

/-- Observable outcome of one `TranslationWorker.run` episode: the
subtitles emitted via `subtitle_ready`, the messages emitted via
`error_occurred`, and whether `backend.flush()` / `backend.stop()` were
reached. -/
structure RunOutcome where
  subtitles : List (List Char)
  errors : List (List Char)
  flushCalled : Bool
  stopCalled : Bool
deriving DecidableEq, Repr

/-- `TranslationWorker.run`: `try` create/start backend, run the loop,
then `flush()` and `stop()`; `except Exception` emits one
`error_occurred` with the exception's message and ends the episode (no
retry).  `flush`/`stop` sit inside the `try`, after the loop — not in the
`finally` — so an exception in the body skips them. -/
def TranslationWorker.run (env : WorkerEnv) (chunks : List Nat) : RunOutcome :=
  match env.startOutcome with
  | Except.error e =>
    { subtitles := [], errors := [e], flushCalled := false, stopCalled := false }
  | Except.ok _ =>
    match workerLoop env chunks 0 [] with
    | (subs, some e) =>
      { subtitles := subs, errors := [e], flushCalled := false, stopCalled := false }
    | (subs, none) =>
      match env.flushOutcome with
      | Except.error e =>
        { subtitles := subs, errors := [e], flushCalled := true, stopCalled := false }
      | Except.ok _ =>
        match env.stopOutcome with
        | Except.error e =>
          { subtitles := subs, errors := [e], flushCalled := true, stopCalled := true }
        | Except.ok _ =>
          { subtitles := subs, errors := [], flushCalled := true, stopCalled := true }

/-! ## Helper lemmas -/

theorem prefix_append_drop {l₁ l₂ : List Char} (h : l₁ <+: l₂) :
    l₂ = l₁ ++ l₂.drop l₁.length := by
  obtain ⟨t, rfl⟩ := h
  rw [List.drop_left]

theorem prefix_eq_of_drop_nil {l₁ l₂ : List Char} (h : l₁ <+: l₂)
    (h2 : l₂.drop l₁.length = []) : l₂ = l₁ := by
  have := prefix_append_drop h
  rw [h2, List.append_nil] at this
  exact this

theorem longestOverlapScan_le (p c : List Char) :
    ∀ n, longestOverlapScan p c n ≤ n := by
  intro n
  induction n with
  | zero => simp [longestOverlapScan]
  | succ k ih =>
    rw [longestOverlapScan]
    split
    · exact Nat.le_refl _
    · exact Nat.le_trans ih (Nat.le_succ k)

theorem longestOverlapScan_isOverlap (p c : List Char) :
    ∀ n, 0 < longestOverlapScan p c n →
      p.drop (p.length - longestOverlapScan p c n) <+: c := by
  intro n
  induction n with
  | zero => simp [longestOverlapScan]
  | succ k ih =>
    rw [longestOverlapScan]
    split
    · intro _
      assumption
    · exact ih

theorem longest_overlap_le_min (p c : List Char) :
    longest_overlap p c ≤ min p.length c.length :=
  longestOverlapScan_le p c _

theorem longest_overlap_isOverlap {p c : List Char}
    (h : 0 < longest_overlap p c) :
    p.drop (p.length - longest_overlap p c) <+: c :=
  longestOverlapScan_isOverlap p c _ h

theorem overlap_drop_ne_nil {p c : List Char} (hs : ¬ c <:+ p)
    (h : 0 < longest_overlap p c) : c.drop (longest_overlap p c) ≠ [] := by
  intro hnil
  set k := longest_overlap p c with hk
  have hkc : k ≤ c.length := Nat.le_trans (longest_overlap_le_min p c) (Nat.min_le_right _ _)
  have hkp : k ≤ p.length := Nat.le_trans (longest_overlap_le_min p c) (Nat.min_le_left _ _)
  have hck : c.length ≤ k := by
    have := List.drop_eq_nil_iff.mp hnil
    omega
  have hpre : p.drop (p.length - k) <+: c := longest_overlap_isOverlap h
  have hlen : (p.drop (p.length - k)).length = c.length := by
    rw [List.length_drop]
    omega
  have : p.drop (p.length - k) = c := hpre.eq_of_length hlen
  exact hs (this ▸ List.drop_suffix (p.length - k) p)


/-! ## Claim theorems: reconciler -/

/-- C1: for every previous transcript `P` and fragment non-empty after
trimming, `add_history_entry` realizes the six-rule decision policy of
the specification: the updated transcript and the displayed text equal
the transcript and increment computed by `specReconcile`. -/
theorem C1_reconciler_six_rule_policy (P text : List Char)
    (h : pyStrip text ≠ []) :
    (add_history_entry P text).1 = (specReconcile P (pyStrip text)).1 ∧
      displayedOf (add_history_entry P text).2
        = (specReconcile P (pyStrip text)).2 := by
  by_cases hP : P = []
  · simp [add_history_entry, specReconcile, hP, h, displayedOf]
  by_cases hEq : pyStrip text = P
  · simp [add_history_entry, specReconcile, hP, h, hEq, displayedOf]
  by_cases hPre : P <+: pyStrip text
  · have hDrop : (pyStrip text).drop P.length ≠ [] := fun hnil =>
      hEq (prefix_eq_of_drop_nil hPre hnil)
    simp [add_history_entry, specReconcile, hP, h, hEq, hPre, hDrop, displayedOf]
  by_cases hSuf : pyStrip text <:+ P
  · simp [add_history_entry, specReconcile, hP, h, hEq, hPre, hSuf, displayedOf]
  by_cases hOv : 0 < longest_overlap P (pyStrip text)
  · have hD : (pyStrip text).drop (longest_overlap P (pyStrip text)) ≠ [] :=
      overlap_drop_ne_nil hSuf hOv
    simp [add_history_entry, specReconcile, hP, h, hEq, hPre, hSuf, hOv, hD,
      displayedOf]
  · simp [add_history_entry, specReconcile, hP, h, hEq, hPre, hSuf, hOv,
      displayedOf]

theorem C1_reconciler_six_rule_policy_witness :
    pyStrip " hello world ".toList ≠ [] ∧
      ((add_history_entry "hello".toList " hello world ".toList).1
          = (specReconcile "hello".toList (pyStrip " hello world ".toList)).1 ∧
        displayedOf (add_history_entry "hello".toList " hello world ".toList).2
          = (specReconcile "hello".toList (pyStrip " hello world ".toList)).2) :=
  ⟨by decide,
   C1_reconciler_six_rule_policy "hello".toList " hello world ".toList (by decide)⟩

/-- C2: the confirmed transcript only grows: each `add_history_entry`
call keeps the old transcript as a prefix of the new one (so no
previously appended character is removed and the length is
non-decreasing), and hence over any sequence of fragments the starting
transcript stays a prefix of the final one. -/
theorem C2_transcript_monotone :
    (∀ transcript text : List Char,
        transcript <+: (add_history_entry transcript text).1 ∧
          transcript.length ≤ (add_history_entry transcript text).1.length) ∧
      (∀ (fragments : List (List Char)) (transcript : List Char),
        transcript <+:
          fragments.foldl (fun p t => (add_history_entry p t).1) transcript) := by
  have step : ∀ transcript text : List Char,
      transcript <+: (add_history_entry transcript text).1 := by
    intro transcript text
    by_cases h0 : pyStrip text = []
    · simp [add_history_entry, h0]
    by_cases hP : transcript = []
    · simp [add_history_entry, h0, hP]
    by_cases hEq : pyStrip text = transcript
    · simp [add_history_entry, h0, hP, hEq]
    by_cases hPre : transcript <+: pyStrip text
    · by_cases hDrop : (pyStrip text).drop transcript.length = []
      · simp [add_history_entry, h0, hP, hEq, hPre, hDrop]
      · simp [add_history_entry, h0, hP, hEq, hPre, hDrop]
    by_cases hSuf : pyStrip text <:+ transcript
    · simp [add_history_entry, h0, hP, hEq, hPre, hSuf]
    by_cases hOv : 0 < longest_overlap transcript (pyStrip text)
    · by_cases hD : (pyStrip text).drop (longest_overlap transcript (pyStrip text)) = []
      · simp [add_history_entry, h0, hP, hEq, hPre, hSuf, hOv, hD]
      · simp [add_history_entry, h0, hP, hEq, hPre, hSuf, hOv, hD,
          List.prefix_append]
    · simp [add_history_entry, h0, hP, hEq, hPre, hSuf, hOv, List.prefix_append]
  refine ⟨fun transcript text => ⟨step transcript text, (step transcript text).length_le⟩, ?_⟩
  intro fragments
  induction fragments with
  | nil => intro transcript; simp
  | cons f fs ih =>
    intro transcript
    simpa using (step transcript f).trans (ih (add_history_entry transcript f).1)

/-- C9: a fragment that is empty after stripping (empty or
whitespace-only input) makes `add_history_entry` return with the
transcript unchanged and no display event emitted. -/
theorem C9_blank_fragment_noop (transcript text : List Char)
    (h : pyStrip text = []) :
    add_history_entry transcript text = (transcript, []) := by
  simp [add_history_entry, h]

theorem C9_blank_fragment_noop_witness :
    pyStrip "  \n ".toList = [] ∧
      add_history_entry "abc".toList "  \n ".toList = ("abc".toList, []) :=
  ⟨by decide, C9_blank_fragment_noop "abc".toList "  \n ".toList (by decide)⟩

/-! ## Claim theorems: PCM conversion -/

theorem truncQ_nonneg {q : ℚ} (h : 0 ≤ q) : 0 ≤ truncQ q :=
  Int.tdiv_nonneg (Rat.num_nonneg.mpr h) (Int.natCast_nonneg _)

theorem truncQ_eq_floor {q : ℚ} (h : 0 ≤ q) : truncQ q = ⌊q⌋ := by
  rw [truncQ, Rat.floor_def]
  exact Int.tdiv_eq_ediv (Rat.num_nonneg.mpr h) (Int.natCast_nonneg _)

theorem truncQ_neg_eq (q : ℚ) : truncQ (-q) = -truncQ q := by
  simp [truncQ, Rat.neg_num, Rat.neg_den]

theorem truncQ_intCast (n : ℤ) : truncQ (n : ℚ) = n := by
  rw [truncQ, Rat.num_intCast, Rat.den_intCast]
  exact_mod_cast Int.tdiv_one n

theorem truncQ_le_of_le {q : ℚ} {n : ℤ} (h0 : 0 ≤ q) (h : q ≤ (n : ℚ)) :
    truncQ q ≤ n := by
  rw [truncQ_eq_floor h0]
  calc ⌊q⌋ ≤ ⌊(n : ℚ)⌋ := Int.floor_mono h
    _ = n := Int.floor_intCast n

theorem truncQ_bounds {q : ℚ} {n : ℤ} (hn : 0 ≤ n) (h1 : -(n : ℚ) ≤ q)
    (h2 : q ≤ (n : ℚ)) : -n ≤ truncQ q ∧ truncQ q ≤ n := by
  rcases le_or_lt 0 q with hq | hq
  · have := truncQ_nonneg hq
    have := truncQ_le_of_le hq h2
    omega
  · have hq' : 0 ≤ -q := by linarith
    have hb : truncQ (-q) ≤ n := truncQ_le_of_le hq' (by linarith)
    have ha : 0 ≤ truncQ (-q) := truncQ_nonneg hq'
    have he : truncQ (-q) = -truncQ q := truncQ_neg_eq q
    omega

theorem clipQ_mem (x : ℚ) : -1 ≤ clipQ x ∧ clipQ x ≤ 1 :=
  ⟨le_min (le_max_right x (-1)) (by norm_num), min_le_right _ 1⟩

theorem clipQ_of_one_le {x : ℚ} (h : 1 ≤ x) : clipQ x = 1 := by
  rw [clipQ, min_eq_right (le_trans h (le_max_left x (-1)))]

theorem clipQ_of_le_neg_one {x : ℚ} (h : x ≤ -1) : clipQ x = -1 := by
  rw [clipQ, max_eq_right h, min_eq_left (by norm_num)]

theorem clipQ_of_mem {x : ℚ} (h1 : -1 ≤ x) (h2 : x ≤ 1) : clipQ x = x := by
  rw [clipQ, max_eq_left h1, min_eq_left h2]

/-- C6: the float→PCM conversion is the pure per-sample map that clips
to `[-1, 1]` and then scales by the int16 maximum 32767 (saturating at
±32767, the identity scaling inside the range, always within int16
range), and it sends `[1.5, -2.0, 0.0]` to `[32767, -32767, 0]`. -/
theorem C6_float_to_pcm16_clip_scale :
    float_to_pcm16 [3/2, -2, 0] = [32767, -32767, 0] ∧
      (∀ data : List ℚ, float_to_pcm16 data
          = data.map (fun x => truncQ (clipQ x * 32767))) ∧
      (∀ x : ℚ, 1 ≤ x → truncQ (clipQ x * 32767) = 32767) ∧
      (∀ x : ℚ, x ≤ -1 → truncQ (clipQ x * 32767) = -32767) ∧
      (∀ x : ℚ, -1 ≤ x → x ≤ 1 →
        truncQ (clipQ x * 32767) = truncQ (x * 32767)) ∧
      (∀ x : ℚ, -32767 ≤ truncQ (clipQ x * 32767) ∧
        truncQ (clipQ x * 32767) ≤ 32767) := by
  have h32767 : truncQ ((32767 : ℚ)) = 32767 := by
    exact_mod_cast truncQ_intCast 32767
  have hneg32767 : truncQ (-(32767 : ℚ)) = -32767 := by
    rw [truncQ_neg_eq, h32767]
  have hpos : ∀ x : ℚ, 1 ≤ x → truncQ (clipQ x * 32767) = 32767 := by
    intro x hx
    rw [clipQ_of_one_le hx, one_mul, h32767]
  have hneg : ∀ x : ℚ, x ≤ -1 → truncQ (clipQ x * 32767) = -32767 := by
    intro x hx
    rw [clipQ_of_le_neg_one hx, neg_one_mul, hneg32767]
  refine ⟨?_, fun data => rfl, hpos, hneg, ?_, ?_⟩
  · have h0 : truncQ ((0 : ℚ)) = 0 := by exact_mod_cast truncQ_intCast 0
    simp only [float_to_pcm16, List.map_cons, List.map_nil]
    rw [hpos (3/2) (by norm_num), hneg (-2) (by norm_num),
      clipQ_of_mem (by norm_num) (by norm_num), zero_mul, h0]
  · intro x h1 h2
    rw [clipQ_of_mem h1 h2]
  · intro x
    have hm := clipQ_mem x
    have hb := truncQ_bounds (n := 32767) (by norm_num)
      (q := clipQ x * 32767) (by push_cast; linarith [hm.1])
      (by push_cast; linarith [hm.2])
    exact_mod_cast hb

theorem C6_float_to_pcm16_clip_scale_witness :
    (1 : ℚ) ≤ 2 ∧ truncQ (clipQ 2 * 32767) = 32767 :=
  ⟨one_le_two, C6_float_to_pcm16_clip_scale.2.2.1 2 one_le_two⟩

/-! ## Claim theorems: poll_translations protocol -/

/-- A receive outcome that neither ends nor aborts the drain loop: a
parsed message whose dispatch raises no error. -/
def okOutcome : RecvOutcome → Bool
  | RecvOutcome.msg m => match dispatchMsg m with
    | Except.ok _ => true
    | Except.error _ => false
  | RecvOutcome.timeout => false
  | RecvOutcome.closed => false

theorem dispatchMsg_error_event {m : WireMsg}
    (h : m.type = some ("error".toList)) :
    dispatchMsg m = Except.error (PollError.serviceError (errorDetails m)) := by
  simp only [dispatchMsg, h]
  rw [if_neg (by decide), if_neg (by decide), if_neg (by decide), if_pos trivial]

theorem errorDetails_of_message {m : WireMsg} {s : List Char}
    (h : m.message = some s) (hs : s ≠ []) : errorDetails m = s := by
  simp [errorDetails, h, pyTruthy, hs]

theorem drainLoop_error_after_ok {pre rest : List RecvOutcome} {e : PollError}
    {m : WireMsg}
    (hpre : ∀ x ∈ pre, okOutcome x = true)
    (hm : dispatchMsg m = Except.error e) :
    (drainLoop (pre ++ RecvOutcome.msg m :: rest)).1 = Except.error e := by
  induction pre with
  | nil => simp [drainLoop, hm]
  | cons x xs ih =>
    have hx := hpre x (by simp)
    have htail := ih (fun y hy => hpre y (by simp [hy]))
    cases x with
    | timeout => simp [okOutcome] at hx
    | closed => simp [okOutcome] at hx
    | msg m' =>
      rcases hdm : dispatchMsg m' with e' | ts
      · rw [okOutcome, hdm] at hx
        simp at hx
      · rcases hd : drainLoop (xs ++ RecvOutcome.msg m :: rest) with ⟨r, rem⟩
        rw [hd] at htail
        simp only at htail
        subst htail
        simp [drainLoop, hdm, hd]

/-- C3: an `error` event received during a poll makes
`poll_translations` raise a service error carrying the extracted detail
message (the `message` field when truthy — so `"quota exceeded"` is
carried exactly), and the texts collected from the earlier messages of
the same call are discarded: the call returns no text at all. -/
theorem C3_error_event_aborts_poll (st : BackendSt) (sock : Socket)
    (pre rest : List RecvOutcome) (m : WireMsg)
    (hws : st.ws = some sock)
    (hq : sock.inbound = pre ++ RecvOutcome.msg m :: rest)
    (hpre : ∀ x ∈ pre, okOutcome x = true)
    (htype : m.type = some ("error".toList)) :
    (poll_translations st).1
        = Except.error (PollError.serviceError (errorDetails m)) ∧
      (∀ s, m.message = some s → s ≠ [] → errorDetails m = s) ∧
      (∀ ts, (poll_translations st).1 ≠ Except.ok ts) := by
  have hdrain : (drainLoop sock.inbound).1
      = Except.error (PollError.serviceError (errorDetails m)) := by
    rw [hq]
    exact drainLoop_error_after_ok hpre (dispatchMsg_error_event htype)
  have hpoll : (poll_translations st).1
      = Except.error (PollError.serviceError (errorDetails m)) := by
    rcases hd : drainLoop sock.inbound with ⟨r, rem⟩
    rw [hd] at hdrain
    simp only at hdrain
    subst hdrain
    simp [poll_translations, hws, hd]
  refine ⟨hpoll, fun s hs hsne => errorDetails_of_message hs hsne, ?_⟩
  intro ts
  rw [hpoll]
  intro hcon
  exact Except.noConfusion hcon

theorem C3_error_event_aborts_poll_witness :
    ({ ws := some { inbound :=
        [RecvOutcome.msg { type := some "response.audio_transcript.delta".toList,
                           transcript := some "hi".toList },
         RecvOutcome.msg { type := some "error".toList,
                           message := some "quota exceeded".toList },
         RecvOutcome.timeout] } } : BackendSt).ws
        = some { inbound :=
            [RecvOutcome.msg { type := some "response.audio_transcript.delta".toList,
                               transcript := some "hi".toList },
             RecvOutcome.msg { type := some "error".toList,
                               message := some "quota exceeded".toList },
             RecvOutcome.timeout] } ∧
      (poll_translations { ws := some { inbound :=
        [RecvOutcome.msg { type := some "response.audio_transcript.delta".toList,
                           transcript := some "hi".toList },
         RecvOutcome.msg { type := some "error".toList,
                           message := some "quota exceeded".toList },
         RecvOutcome.timeout] } }).1
        = Except.error (PollError.serviceError
            (errorDetails { type := some "error".toList,
                            message := some "quota exceeded".toList })) ∧
      errorDetails { type := some "error".toList,
                     message := some "quota exceeded".toList }
        = "quota exceeded".toList :=
  ⟨rfl,
   (C3_error_event_aborts_poll _ _
      [RecvOutcome.msg { type := some "response.audio_transcript.delta".toList,
                         transcript := some "hi".toList }]
      [RecvOutcome.timeout]
      { type := some "error".toList, message := some "quota exceeded".toList }
      rfl rfl (by decide) rfl).1,
   (C3_error_event_aborts_poll
      { ws := some { inbound :=
        [RecvOutcome.msg { type := some "response.audio_transcript.delta".toList,
                           transcript := some "hi".toList },
         RecvOutcome.msg { type := some "error".toList,
                           message := some "quota exceeded".toList },
         RecvOutcome.timeout] } }
      { inbound :=
        [RecvOutcome.msg { type := some "response.audio_transcript.delta".toList,
                           transcript := some "hi".toList },
         RecvOutcome.msg { type := some "error".toList,
                           message := some "quota exceeded".toList },
         RecvOutcome.timeout] }
      [RecvOutcome.msg { type := some "response.audio_transcript.delta".toList,
                         transcript := some "hi".toList }]
      [RecvOutcome.timeout]
      { type := some "error".toList, message := some "quota exceeded".toList }
      rfl rfl (by decide) rfl).2.1 "quota exceeded".toList rfl (by decide)⟩

/-- C10: with no open session (`self._ws is None`, as after `stop`),
`poll_translations` returns the empty list without raising and without
changing the backend state, while the send path (`_send_json`) raises in
the same situation. -/
theorem C10_poll_without_session (st : BackendSt) (h : st.ws = none) :
    poll_translations st = (Except.ok [], st) ∧
      (∀ st' : BackendSt,
        poll_translations (DashScopeRealtimeBackend.stop st').2
          = (Except.ok [], (DashScopeRealtimeBackend.stop st').2)) ∧
      (∀ payload, sendJson st payload
          = Except.error ("WebSocket 尚未建立".toList)) := by
  refine ⟨by simp [poll_translations, h], ?_, fun payload => by simp [sendJson, h]⟩
  intro st'
  have hnone : ((DashScopeRealtimeBackend.stop st').2).ws = none := by
    cases hw : st'.ws <;> simp [DashScopeRealtimeBackend.stop, hw]
  simp [poll_translations, hnone]

theorem C10_poll_without_session_witness :
    ({ ws := none, eventCounter := 5 } : BackendSt).ws = none ∧
      poll_translations { ws := none, eventCounter := 5 }
        = (Except.ok [], { ws := none, eventCounter := 5 }) :=
  ⟨rfl, (C10_poll_without_session { ws := none, eventCounter := 5 } rfl).1⟩

/-! ## Claim theorems: stop() -/

/-- C5 counterexample: when the socket's `close()` raises, `stop()` does
not swallow the error — the `try/finally` has no `except`, so the
exception propagates (while `self._ws` is still cleared).  This refutes
"swallows any error arising during close (stop never raises)". -/
theorem C5_stop_raises_counterexample :
    (DashScopeRealtimeBackend.stop
        { ws := some { inbound := [], closeFails := true }, eventCounter := 0 }).1
      = Except.error () ∧
      (DashScopeRealtimeBackend.stop
        { ws := some { inbound := [], closeFails := true }, eventCounter := 0 }).1
      ≠ Except.ok () := by
  constructor
  · rfl
  · decide

/-- C5 (amended): `stop()` is idempotent — a no-op when no socket is
open, and a second call after any call is a no-op; it always clears the
connection state (no socket retained), even when `close()` raises; but a
close-time error propagates out of `stop` rather than being swallowed. -/
theorem C5_stop_idempotent_clears_state (st : BackendSt) :
    ((DashScopeRealtimeBackend.stop st).2).ws = none ∧
      (st.ws = none → DashScopeRealtimeBackend.stop st = (Except.ok (), st)) ∧
      DashScopeRealtimeBackend.stop ((DashScopeRealtimeBackend.stop st).2)
        = (Except.ok (), (DashScopeRealtimeBackend.stop st).2) ∧
      (∀ sock, st.ws = some sock →
        (DashScopeRealtimeBackend.stop st).1
            = (if sock.closeFails then Except.error () else Except.ok ()) ∧
          (DashScopeRealtimeBackend.stop st).2 = { st with ws := none }) := by
  have hn : ∀ s : BackendSt, s.ws = none →
      DashScopeRealtimeBackend.stop s = (Except.ok (), s) := by
    intro s hs
    simp [DashScopeRealtimeBackend.stop, hs]
  have h2 : ((DashScopeRealtimeBackend.stop st).2).ws = none := by
    cases hw : st.ws with
    | none => rw [hn st hw]; exact hw
    | some sock => simp [DashScopeRealtimeBackend.stop, hw]
  refine ⟨h2, hn st, hn _ h2, ?_⟩
  intro sock hw
  constructor <;> simp [DashScopeRealtimeBackend.stop, hw]

theorem C5_stop_idempotent_clears_state_witness :
    (({ ws := some { inbound := [], closeFails := true }, eventCounter := 0 }
        : BackendSt).ws
      = some { inbound := [], closeFails := true }) ∧
      (DashScopeRealtimeBackend.stop
          { ws := some { inbound := [], closeFails := true }, eventCounter := 0 }).1
        = (if ({ inbound := [], closeFails := true } : Socket).closeFails
            then Except.error () else Except.ok ()) ∧
      (DashScopeRealtimeBackend.stop
          { ws := some { inbound := [], closeFails := true }, eventCounter := 0 }).2
        = { ws := none, eventCounter := 0 } :=
  ⟨rfl,
   ((C5_stop_idempotent_clears_state
      { ws := some { inbound := [], closeFails := true }, eventCounter := 0 }).2.2.2
      { inbound := [], closeFails := true } rfl).1,
   ((C5_stop_idempotent_clears_state
      { ws := some { inbound := [], closeFails := true }, eventCounter := 0 }).2.2.2
      { inbound := [], closeFails := true } rfl).2⟩

/-! ## Claim theorems: worker loop error handling -/

/-- C4 counterexample: when the loop body raises (here: the first poll),
the worker emits one error notification but never reaches
`backend.flush()` or `backend.stop()` — they sit inside the `try` after
the loop, not in a `finally`.  This refutes "on every exit, including
exception exits, flush() and then stop() are invoked". -/
theorem C4_no_flush_stop_on_exception_counterexample :
    TranslationWorker.run
      { startOutcome := Except.ok (), sendOutcome := fun _ => Except.ok (),
        pollOutcome := fun _ => Except.error "boom".toList,
        flushOutcome := Except.ok (), stopOutcome := Except.ok (),
        stopFlagAt := fun _ => false } [0]
      = { subtitles := [], errors := ["boom".toList],
          flushCalled := false, stopCalled := false } := by
  decide

/-- C4 (amended): any exception in the loop body is caught exactly once
and converted into a single error notification that ends the episode
without retry; `flush()` then `stop()` are reached only on a normal loop
exit (stop flag or stream end) — an exception exit skips them both. -/
theorem C4_worker_error_handling (env : WorkerEnv) (chunks : List Nat) :
    (TranslationWorker.run env chunks).errors.length ≤ 1 ∧
      (env.startOutcome = Except.ok () →
        (workerLoop env chunks 0 []).2 = none →
        env.flushOutcome = Except.ok () → env.stopOutcome = Except.ok () →
        TranslationWorker.run env chunks
          = { subtitles := (workerLoop env chunks 0 []).1, errors := [],
              flushCalled := true, stopCalled := true }) ∧
      (∀ e, env.startOutcome = Except.ok () →
        (workerLoop env chunks 0 []).2 = some e →
        TranslationWorker.run env chunks
          = { subtitles := (workerLoop env chunks 0 []).1, errors := [e],
              flushCalled := false, stopCalled := false }) := by
  refine ⟨?_, ?_, ?_⟩
  · rcases hs : env.startOutcome with e | u
    · simp [TranslationWorker.run, hs]
    · rcases hl : workerLoop env chunks 0 [] with ⟨subs, err⟩
      rcases err with _ | e
      · rcases hf : env.flushOutcome with e | u'
        · simp [TranslationWorker.run, hs, hl, hf]
        · rcases hst : env.stopOutcome with e | u''
          · simp [TranslationWorker.run, hs, hl, hf, hst]
          · simp [TranslationWorker.run, hs, hl, hf, hst]
      · simp [TranslationWorker.run, hs, hl]
  · intro h1 h2 h3 h4
    rcases hl : workerLoop env chunks 0 [] with ⟨subs, err⟩
    rw [hl] at h2
    simp only at h2
    subst h2
    simp [TranslationWorker.run, h1, hl, h3, h4]
  · intro e h1 h2
    rcases hl : workerLoop env chunks 0 [] with ⟨subs, err⟩
    rw [hl] at h2
    simp only at h2
    subst h2
    simp [TranslationWorker.run, h1, hl]

theorem C4_worker_error_handling_witness :
    (workerLoop
        { startOutcome := Except.ok (), sendOutcome := fun _ => Except.ok (),
          pollOutcome := fun _ => Except.error "boom".toList,
          flushOutcome := Except.ok (), stopOutcome := Except.ok (),
          stopFlagAt := fun _ => false } [0] 0 []).2 = some "boom".toList ∧
      TranslationWorker.run
        { startOutcome := Except.ok (), sendOutcome := fun _ => Except.ok (),
          pollOutcome := fun _ => Except.error "boom".toList,
          flushOutcome := Except.ok (), stopOutcome := Except.ok (),
          stopFlagAt := fun _ => false } [0]
        = { subtitles :=
              (workerLoop
                { startOutcome := Except.ok (), sendOutcome := fun _ => Except.ok (),
                  pollOutcome := fun _ => Except.error "boom".toList,
                  flushOutcome := Except.ok (), stopOutcome := Except.ok (),
                  stopFlagAt := fun _ => false } [0] 0 []).1,
            errors := ["boom".toList],
            flushCalled := false, stopCalled := false } :=
  ⟨rfl,
   (C4_worker_error_handling
      { startOutcome := Except.ok (), sendOutcome := fun _ => Except.ok (),
        pollOutcome := fun _ => Except.error "boom".toList,
        flushOutcome := Except.ok (), stopOutcome := Except.ok (),
        stopFlagAt := fun _ => false } [0]).2.2 "boom".toList rfl rfl⟩

/-! ## Claim theorems: send_audio and mock backend -/

/-- C7: `send_audio` is a no-op when the socket is absent or the chunk
empty; otherwise it transmits exactly one `input_audio_buffer.append`
message whose `audio` field is the base64 encoding of the chunk and
whose event id is `event_<epoch_millis>_<counter>` with the freshly
incremented counter, which strictly increases on every effective send. -/
theorem C7_send_audio_message (st : BackendSt) (nowMillis : Nat)
    (chunk : List Nat) :
    ((st.ws = none ∨ chunk = []) → send_audio st nowMillis chunk = (st, [])) ∧
      (st.ws ≠ none → chunk ≠ [] →
        send_audio st nowMillis chunk
          = ({ st with eventCounter := st.eventCounter + 1 },
             [{ event_id := "event_".toList ++ natDigits nowMillis ++ ['_']
                  ++ natDigits (st.eventCounter + 1),
                type := "input_audio_buffer.append".toList,
                audio := base64Encode chunk }]) ∧
        st.eventCounter < (send_audio st nowMillis chunk).1.eventCounter) := by
  constructor
  · intro h
    rcases h with h | h <;> simp [send_audio, h]
  · intro h1 h2
    have heq : send_audio st nowMillis chunk
        = ({ st with eventCounter := st.eventCounter + 1 },
           [{ event_id := "event_".toList ++ natDigits nowMillis ++ ['_']
                ++ natDigits (st.eventCounter + 1),
              type := "input_audio_buffer.append".toList,
              audio := base64Encode chunk }]) := by
      simp [send_audio, next_event_id, h1, h2]
    refine ⟨heq, ?_⟩
    rw [heq]
    simp

theorem C7_send_audio_message_witness :
    (({ ws := some { inbound := [], closeFails := false }, eventCounter := 3 }
        : BackendSt).ws ≠ none) ∧
      ([77, 97, 110] : List Nat) ≠ [] ∧
      send_audio { ws := some { inbound := [], closeFails := false },
                   eventCounter := 3 } 1700000000123 [77, 97, 110]
        = ({ ws := some { inbound := [], closeFails := false }, eventCounter := 4 },
           [{ event_id := "event_1700000000123_4".toList,
              type := "input_audio_buffer.append".toList,
              audio := "TWFu".toList }]) :=
  ⟨by decide, by decide, by
    have h := (C7_send_audio_message
      { ws := some { inbound := [], closeFails := false }, eventCounter := 3 }
      1700000000123 [77, 97, 110]).2 (by decide) (by decide)
    rw [h.1]
    decide⟩

/-- C8: the mock backend's `poll_translations` returns nothing on a zero
byte counter and otherwise exactly one synthetic status string (built
from `buffer / (samplerate * 2)` seconds), resetting the counter — so a
second poll with no intervening send returns nothing; `start`, `flush`
and `stop` reset the counter; `send_audio` adds the chunk's length. -/
theorem C8_mock_backend (st : MockSt) (chunk : List Nat) :
    (st.buffer = 0 → MockTranslatorBackend.poll_translations st = (st, [])) ∧
      (st.buffer ≠ 0 →
        MockTranslatorBackend.poll_translations st
          = ({ st with buffer := 0 }, [mockStatusString st.buffer st.samplerate]) ∧
        (MockTranslatorBackend.poll_translations st).2.length = 1) ∧
      (MockTranslatorBackend.poll_translations
          (MockTranslatorBackend.poll_translations st).1).2 = [] ∧
      (MockTranslatorBackend.start st).buffer = 0 ∧
      (MockTranslatorBackend.flush st).buffer = 0 ∧
      (MockTranslatorBackend.stop st).buffer = 0 ∧
      (MockTranslatorBackend.send_audio st chunk).buffer
        = st.buffer + chunk.length := by
  have hb : (MockTranslatorBackend.poll_translations st).1.buffer = 0 := by
    by_cases h : st.buffer = 0 <;>
      simp [MockTranslatorBackend.poll_translations, h]
  refine ⟨?_, ?_, ?_, rfl, rfl, rfl, rfl⟩
  · intro h
    simp [MockTranslatorBackend.poll_translations, h]
  · intro h
    constructor <;> simp [MockTranslatorBackend.poll_translations, h]
  · rcases hp : MockTranslatorBackend.poll_translations st with ⟨st', out⟩
    rw [hp] at hb
    simp only at hb
    simp [MockTranslatorBackend.poll_translations, hb]

theorem C8_mock_backend_witness :
    ({ samplerate := 16000, buffer := 32000 } : MockSt).buffer ≠ 0 ∧
      MockTranslatorBackend.poll_translations
          { samplerate := 16000, buffer := 32000 }
        = ({ samplerate := 16000, buffer := 0 },
           ["[Mock] 已处理约 1.0 秒音频".toList]) :=
  ⟨by decide, by
    have h := (C8_mock_backend { samplerate := 16000, buffer := 32000 } []).2.1
      (by decide)
    rw [h.1]
    decide⟩

